import Mathlib

/-!
Verification of the githunt repository's date-window calculator, search-request
builder, label formatter, paginated group fetcher, bookmarks store and RSS
generator (src/lib/api.ts, the useRepositories hook, the useBookmarks store and
the RSS module).

The JavaScript `Date` values the code manipulates are modelled as civil
date-times in a fixed zero-offset locale (no DST): a record of year, month,
day and milliseconds-of-day.  The date-fns operations the code calls
(startOfDay, endOfDay, subDays, subWeeks, subMonths, format) are embedded with
their documented semantics on that representation.
-/

namespace GitHunt

/-- Milliseconds in one day. -/
def msPerDay : Nat := 86400000

/-- A civil date-time: the state of a JS `Date` in a fixed zero-offset locale. -/
structure DateTime where
  year : Int
  month : Nat
  day : Nat
  msOfDay : Nat
deriving DecidableEq, Repr

/-- Gregorian leap-year test. -/
def isLeapYear (y : Int) : Bool :=
  (y % 4 == 0 && y % 100 != 0) || y % 400 == 0

/-- Days in a month (1-12); 0 for out-of-range months. -/
def daysInMonth (leap : Bool) (m : Nat) : Nat :=
  match m with
  | 1 => 31
  | 2 => if leap then 29 else 28
  | 3 => 31
  | 4 => 30
  | 5 => 31
  | 6 => 30
  | 7 => 31
  | 8 => 31
  | 9 => 30
  | 10 => 31
  | 11 => 30
  | 12 => 31
  | _ => 0

/-- Days in the year before the first of month `m`. -/
def daysBeforeMonth (leap : Bool) : Nat → Nat
  | 0 => 0
  | 1 => 0
  | m + 1 => daysBeforeMonth leap m + daysInMonth leap m

/-- Well-formedness of a civil date-time. -/
def validDate (dt : DateTime) : Prop :=
  1 ≤ dt.month ∧ dt.month ≤ 12 ∧ 1 ≤ dt.day ∧
    dt.day ≤ daysInMonth (isLeapYear dt.year) dt.month ∧ dt.msOfDay < msPerDay

instance (dt : DateTime) : Decidable (validDate dt) := by
  unfold validDate; infer_instance

/-- Number of leap years `z` with `0 ≤ z < y` (as a formal integer quantity
for every `y`). -/
def leapsBefore (y : Int) : Int :=
  (y + 3) / 4 - (y + 99) / 100 + (y + 399) / 400

/-- Days from the epoch day (year 0, Jan 1) to Jan 1 of year `y`. -/
def daysBeforeYear (y : Int) : Int :=
  365 * y + leapsBefore y

/-- Linear day number of a civil date. -/
def dayIndex (dt : DateTime) : Int :=
  daysBeforeYear dt.year
    + (daysBeforeMonth (isLeapYear dt.year) dt.month : Int) + (dt.day : Int) - 1

/-- Milliseconds since the epoch instant. -/
def toMillis (dt : DateTime) : Int :=
  dayIndex dt * (msPerDay : Int) + (dt.msOfDay : Int)

/-- date-fns `startOfDay`: same civil day at 00:00:00.000. -/
def startOfDay (dt : DateTime) : DateTime :=
  { dt with msOfDay := 0 }

/-- date-fns `endOfDay`: same civil day at 23:59:59.999. -/
def endOfDay (dt : DateTime) : DateTime :=
  { dt with msOfDay := msPerDay - 1 }

/-- The previous civil day, keeping the time of day. -/
def prevDay (dt : DateTime) : DateTime :=
  if 2 ≤ dt.day then { dt with day := dt.day - 1 }
  else if 2 ≤ dt.month then
    { dt with month := dt.month - 1,
              day := daysInMonth (isLeapYear dt.year) (dt.month - 1) }
  else { dt with year := dt.year - 1, month := 12, day := 31 }

/-- date-fns `subDays`: go back `n` civil days, keeping the time of day. -/
def subDays (dt : DateTime) (n : Nat) : DateTime :=
  prevDay^[n] dt

/-- date-fns `subWeeks n` = `subDays (7*n)`. -/
def subWeeks (dt : DateTime) (n : Nat) : DateTime :=
  subDays dt (7 * n)

/-- Zero-based month counter of a civil date. -/
def monthIndex (dt : DateTime) : Int :=
  12 * dt.year + (dt.month : Int) - 1

/-- date-fns `subMonths`: shift the (year, month) pair back by `n` months and
clamp the day of month into the target month, keeping the time of day. -/
def subMonths (dt : DateTime) (n : Nat) : DateTime :=
  let target : Int := monthIndex dt - (n : Int)
  let y : Int := target / 12
  let m : Nat := (target % 12).toNat + 1
  { dt with year := y, month := m,
            day := min dt.day (daysInMonth (isLeapYear y) m) }

/-- The cadence selector (`DateJump` in src/stores/preferences.ts). -/
inductive DateJump where
  | day
  | week
  | month
deriving DecidableEq, Repr

/-- `DateRange` from src/types/github.ts.  The source field `end` is a Lean
keyword, so it is named `stop` here. -/
structure DateRange where
  start : DateTime
  stop : DateTime
deriving DecidableEq, Repr

/-- `getDateRange` from src/lib/api.ts, with the implicit `new Date()` made an
explicit `now` argument. -/
def getDateRange (dateJump : DateJump) (offset : Nat) (now : DateTime) : DateRange :=
  match dateJump with
  | .day => { start := startOfDay (subDays now offset), stop := endOfDay (subDays now offset) }
  | .week => { start := startOfDay (subWeeks now (offset + 1)), stop := endOfDay (subWeeks now offset) }
  | .month => { start := startOfDay (subMonths now (offset + 1)), stop := endOfDay (subMonths now offset) }

theorem leapsBefore_succ (y : Int) :
    leapsBefore (y + 1) = leapsBefore y + (if isLeapYear y then 1 else 0) := by
  simp only [leapsBefore, isLeapYear, Bool.or_eq_true, Bool.and_eq_true,
    beq_iff_eq, bne_iff_ne]
  split <;> omega

theorem daysBeforeYear_succ (y : Int) :
    daysBeforeYear (y + 1) = daysBeforeYear y + 365 + (if isLeapYear y then 1 else 0) := by
  simp only [daysBeforeYear, leapsBefore_succ]
  split <;> omega

theorem daysInMonth_pos (leap : Bool) :
    ∀ m < 13, 1 ≤ m → 1 ≤ daysInMonth leap m := by
  cases leap <;> decide

theorem daysInMonth_le (leap : Bool) :
    ∀ m < 13, daysInMonth leap m ≤ 31 := by
  cases leap <;> decide

theorem daysBeforeMonth_step (leap : Bool) :
    ∀ m < 13, 2 ≤ m →
      daysBeforeMonth leap m = daysBeforeMonth leap (m - 1) + daysInMonth leap (m - 1) := by
  cases leap <;> decide

theorem daysBeforeMonth_twelve (leap : Bool) :
    daysBeforeMonth leap 12 + daysInMonth leap 12 = 365 + (if leap then 1 else 0) := by
  cases leap <;> decide

theorem dayOffset_bound (leap : Bool) :
    ∀ m < 13, ∀ d < 32, 1 ≤ m → 1 ≤ d → d ≤ daysInMonth leap m →
      daysBeforeMonth leap m + d ≤ 365 + (if leap then 1 else 0) := by
  cases leap <;> decide

theorem daysBeforeMonth_mono (leap : Bool) :
    ∀ a < 13, ∀ b < 13, a < b →
      daysBeforeMonth leap a + daysInMonth leap a ≤ daysBeforeMonth leap b := by
  cases leap <;> decide

theorem daysInMonth_twelve (leap : Bool) : daysInMonth leap 12 = 31 := by
  cases leap <;> rfl

theorem prevDay_correct (dt : DateTime) (h : validDate dt) :
    validDate (prevDay dt) ∧ dayIndex (prevDay dt) = dayIndex dt - 1 := by
  obtain ⟨y, m, d, ms⟩ := dt
  obtain ⟨hm1, hm2, hd1, hd2, hms⟩ := h
  simp only at hm1 hm2 hd1 hd2 hms
  by_cases hd : 2 ≤ d
  · have hpd : prevDay ⟨y, m, d, ms⟩ = ⟨y, m, d - 1, ms⟩ := by
      simp [prevDay, hd]
    rw [hpd]
    exact ⟨⟨hm1, hm2, by (try dsimp only); omega, by (try dsimp only); omega, hms⟩,
      by simp only [dayIndex]; (try dsimp only); omega⟩
  · by_cases hm : 2 ≤ m
    · have hpd : prevDay ⟨y, m, d, ms⟩ =
          ⟨y, m - 1, daysInMonth (isLeapYear y) (m - 1), ms⟩ := by
        simp [prevDay, hd, hm]
      rw [hpd]
      have hpos := daysInMonth_pos (isLeapYear y) (m - 1) (by omega) (by omega)
      have hstep := daysBeforeMonth_step (isLeapYear y) m (by omega) hm
      refine ⟨⟨by (try dsimp only); omega, by (try dsimp only); omega, hpos, le_refl _, hms⟩, ?_⟩
      have hd' : d = 1 := by omega
      simp only [dayIndex, hd']
      try dsimp only
      omega
    · have hm' : m = 1 := by omega
      have hd' : d = 1 := by omega
      subst hm' hd'
      have hpd : prevDay ⟨y, 1, 1, ms⟩ = ⟨y - 1, 12, 31, ms⟩ := by
        simp [prevDay]
      rw [hpd]
      have hdim12 := daysInMonth_twelve (isLeapYear (y - 1))
      have h12 := daysBeforeMonth_twelve (isLeapYear (y - 1))
      have hsucc := daysBeforeYear_succ (y - 1)
      have hy : y - 1 + 1 = y := by omega
      rw [hy] at hsucc
      refine ⟨⟨by (try dsimp only); omega, by (try dsimp only); omega, by (try dsimp only); omega,
        le_of_eq hdim12.symm, hms⟩, ?_⟩
      have hdbm1 : daysBeforeMonth (isLeapYear y) 1 = 0 := rfl
      simp only [dayIndex, hdbm1]
      by_cases hL : isLeapYear (y - 1) = true
      · rw [if_pos hL] at h12 hsucc; omega
      · rw [if_neg hL] at h12 hsucc; omega

theorem subDays_correct (dt : DateTime) (h : validDate dt) (n : Nat) :
    validDate (subDays dt n) ∧ dayIndex (subDays dt n) = dayIndex dt - n := by
  induction n with
  | zero => simpa [subDays]
  | succ k ih =>
    have hstep : subDays dt (k + 1) = prevDay (subDays dt k) := by
      simp [subDays, Function.iterate_succ_apply']
    obtain ⟨hv, hi⟩ := ih
    obtain ⟨hv', hi'⟩ := prevDay_correct (subDays dt k) hv
    rw [hstep]
    refine ⟨hv', ?_⟩
    rw [hi', hi]
    push_cast
    ring

theorem daysBeforeYear_add_mono (n : Nat) (y : Int) :
    daysBeforeYear y + 365 * n ≤ daysBeforeYear (y + n) := by
  induction n with
  | zero => simp
  | succ k ih =>
    have hsucc := daysBeforeYear_succ (y + k)
    have : (((k : Nat) + 1 : Nat) : Int) = (k : Int) + 1 := by push_cast; ring
    rw [this, ← add_assoc]
    rw [hsucc]
    split <;> omega

theorem dayIndex_nonneg_part (dt : DateTime) (h : validDate dt) :
    daysBeforeYear dt.year ≤ dayIndex dt ∧
      dayIndex dt < daysBeforeYear (dt.year + 1) := by
  obtain ⟨hm1, hm2, hd1, hd2, _⟩ := h
  have hdle := daysInMonth_le (isLeapYear dt.year) dt.month (by omega)
  have hbound := dayOffset_bound (isLeapYear dt.year) dt.month (by omega) dt.day
    (by omega) hm1 hd1 hd2
  have hsucc := daysBeforeYear_succ dt.year
  constructor
  · simp only [dayIndex]; omega
  · simp only [dayIndex]
    split at hbound <;> split at hsucc <;> omega

theorem subMonths_fields (dt : DateTime) (n : Nat) :
    subMonths dt n = ⟨(monthIndex dt - n) / 12, ((monthIndex dt - n) % 12).toNat + 1,
      min dt.day (daysInMonth (isLeapYear ((monthIndex dt - n) / 12))
        (((monthIndex dt - n) % 12).toNat + 1)), dt.msOfDay⟩ := rfl

theorem subMonths_valid (dt : DateTime) (h : validDate dt) (n : Nat) :
    validDate (subMonths dt n) := by
  obtain ⟨hm1, hm2, hd1, hd2, hms⟩ := h
  rw [subMonths_fields]
  have hpos := daysInMonth_pos (isLeapYear ((monthIndex dt - n) / 12))
    (((monthIndex dt - n) % 12).toNat + 1) (by omega) (by omega)
  refine ⟨by (try dsimp only); omega, by (try dsimp only); omega, ?_, ?_, hms⟩
  · exact Nat.le_min.mpr ⟨hd1, hpos⟩
  · exact Nat.min_le_right _ _

theorem subMonths_lex (dt : DateTime) (n : Nat) :
    (subMonths dt (n + 1)).year < (subMonths dt n).year ∨
      ((subMonths dt (n + 1)).year = (subMonths dt n).year ∧
        (subMonths dt (n + 1)).month < (subMonths dt n).month) := by
  rw [subMonths_fields, subMonths_fields]
  try dsimp only
  omega

/-- Linear day numbers respect the lexicographic order on (year, month, day). -/
theorem dayIndex_lt_of_lex (a b : DateTime) (ha : validDate a) (hb : validDate b)
    (h : a.year < b.year ∨ (a.year = b.year ∧ a.month < b.month) ∨
      (a.year = b.year ∧ a.month = b.month ∧ a.day < b.day)) :
    dayIndex a < dayIndex b := by
  obtain ⟨ham1, ham2, had1, had2, _⟩ := ha
  obtain ⟨hbm1, hbm2, hbd1, hbd2, _⟩ := hb
  rcases h with hy | ⟨hy, hm⟩ | ⟨hy, hm, hd⟩
  · have h1 := (dayIndex_nonneg_part a ⟨ham1, ham2, had1, had2, by assumption⟩).2
    have h2 := (dayIndex_nonneg_part b ⟨hbm1, hbm2, hbd1, hbd2, by assumption⟩).1
    have hmono := daysBeforeYear_add_mono (b.year - (a.year + 1)).toNat (a.year + 1)
    have heq : (a.year + 1) + ((b.year - (a.year + 1)).toNat : Int) = b.year := by omega
    rw [heq] at hmono
    omega
  · have hmono := daysBeforeMonth_mono (isLeapYear b.year) a.month (by omega)
      b.month (by omega) hm
    rw [hy] at had2
    simp only [dayIndex, hy]
    omega
  · rw [hy] at had2
    simp only [dayIndex, hy, hm]
    omega

theorem dayIndex_startOfDay (x : DateTime) : dayIndex (startOfDay x) = dayIndex x := rfl

theorem dayIndex_endOfDay (x : DateTime) : dayIndex (endOfDay x) = dayIndex x := rfl

theorem toMillis_startOfDay (x : DateTime) :
    toMillis (startOfDay x) = dayIndex x * (msPerDay : Int) := by
  have h : toMillis (startOfDay x)
      = dayIndex (startOfDay x) * (msPerDay : Int) + ((0 : Nat) : Int) := rfl
  rw [h, dayIndex_startOfDay]
  simp

theorem toMillis_endOfDay (x : DateTime) :
    toMillis (endOfDay x) = dayIndex x * (msPerDay : Int) + ((msPerDay : Int) - 1) := by
  have h : toMillis (endOfDay x)
      = dayIndex (endOfDay x) * (msPerDay : Int) + ((msPerDay - 1 : Nat) : Int) := rfl
  have h2 : ((msPerDay - 1 : Nat) : Int) = (msPerDay : Int) - 1 := by
    simp [msPerDay]
  rw [h, dayIndex_endOfDay, h2]

/-- A fixed concrete reference instant: 2024-05-15T12:00:00.000. -/
def demoNow : DateTime := ⟨2024, 5, 15, 43200000⟩

/-- Claim C1 (counterexample): at `now` = 2024-05-15T12:00, the week window at
offset 1 does not end where the offset-0 window starts — the two instants lie on
the same calendar day but differ by 86399999 ms, so consecutive windows are not
adjacent half-open tiles. -/
theorem getDateRange_week_stop_ne_prev_start :
    (getDateRange .week 1 demoNow).stop ≠ (getDateRange .week 0 demoNow).start ∧
      toMillis (getDateRange .week 1 demoNow).stop
        = toMillis (getDateRange .week 0 demoNow).start + 86399999 := by
  constructor
  · decide
  · decide

/-- Claim C1 (amended): for the week cadence and every N, window (N+1)'s end is
the last millisecond (23:59:59.999) of the very calendar day on which window N
starts: `stop(N+1) = start(N) + (msPerDay - 1)`; consecutive windows therefore
overlap on exactly one calendar day instead of tiling.  The same holds for the
month cadence. -/
theorem getDateRange_consecutive_windows_overlap (n : Nat) (now : DateTime) :
    toMillis (getDateRange .week (n + 1) now).stop
        = toMillis (getDateRange .week n now).start + ((msPerDay : Int) - 1) ∧
      toMillis (getDateRange .month (n + 1) now).stop
        = toMillis (getDateRange .month n now).start + ((msPerDay : Int) - 1) := by
  constructor
  · show toMillis (endOfDay (subWeeks now (n + 1)))
        = toMillis (startOfDay (subWeeks now (n + 1))) + ((msPerDay : Int) - 1)
    rw [toMillis_endOfDay, toMillis_startOfDay]
  · show toMillis (endOfDay (subMonths now (n + 1)))
        = toMillis (startOfDay (subMonths now (n + 1))) + ((msPerDay : Int) - 1)
    rw [toMillis_endOfDay, toMillis_startOfDay]

/-- Claim C2 (counterexample): at `now` = 2024-05-15T12:00 and offset 0, the
width of the week window is not 7 days: it is 8 calendar days minus one
millisecond. -/
theorem getDateRange_week_width_ne_seven_days :
    toMillis (getDateRange .week 0 demoNow).stop
        - toMillis (getDateRange .week 0 demoNow).start ≠ 7 * (msPerDay : Int) ∧
      toMillis (getDateRange .week 0 demoNow).stop
        - toMillis (getDateRange .week 0 demoNow).start = 8 * (msPerDay : Int) - 1 := by
  constructor
  · decide
  · decide

/-- Claim C2 (amended): for the week cadence and every offset, the window's end
is end-of-day(now - offset weeks) and its start is
start-of-day(now - (offset+1) weeks), as claimed, but the resulting width
(end minus start) is 8 days minus one millisecond, not exactly 7 days. -/
theorem getDateRange_week_anchors_and_width (now : DateTime) (offset : Nat)
    (h : validDate now) :
    (getDateRange .week offset now).stop = endOfDay (subWeeks now offset) ∧
      (getDateRange .week offset now).start = startOfDay (subWeeks now (offset + 1)) ∧
      toMillis (getDateRange .week offset now).stop
          - toMillis (getDateRange .week offset now).start
        = 8 * (msPerDay : Int) - 1 := by
  refine ⟨rfl, rfl, ?_⟩
  have h1 := (subDays_correct now h (7 * offset)).2
  have h2 := (subDays_correct now h (7 * (offset + 1))).2
  show toMillis (endOfDay (subWeeks now offset))
      - toMillis (startOfDay (subWeeks now (offset + 1))) = 8 * (msPerDay : Int) - 1
  rw [toMillis_endOfDay, toMillis_startOfDay]
  simp only [subWeeks]
  rw [h1, h2]
  have hD : (msPerDay : Int) = 86400000 := rfl
  rw [hD]
  push_cast
  ring

/-- Claim C2 witness at a concrete input. -/
theorem getDateRange_week_anchors_and_width_witness :
    validDate demoNow ∧
      toMillis (getDateRange .week 0 demoNow).stop
          - toMillis (getDateRange .week 0 demoNow).start = 8 * (msPerDay : Int) - 1 :=
  ⟨by decide, (getDateRange_week_anchors_and_width demoNow 0 (by decide)).2.2⟩

/-- Claim C5: for every cadence and offset, the calculator returns a window with
`start < end` (hence `start ≤ end` always). -/
theorem getDateRange_start_lt_stop (dj : DateJump) (offset : Nat) (now : DateTime)
    (h : validDate now) :
    toMillis (getDateRange dj offset now).start
      < toMillis (getDateRange dj offset now).stop := by
  have hD : (msPerDay : Int) = 86400000 := rfl
  cases dj
  case day =>
    show toMillis (startOfDay (subDays now offset)) < toMillis (endOfDay (subDays now offset))
    rw [toMillis_endOfDay, toMillis_startOfDay, hD]
    omega
  case week =>
    show toMillis (startOfDay (subWeeks now (offset + 1)))
        < toMillis (endOfDay (subWeeks now offset))
    rw [toMillis_endOfDay, toMillis_startOfDay]
    simp only [subWeeks]
    rw [(subDays_correct now h (7 * offset)).2, (subDays_correct now h (7 * (offset + 1))).2, hD]
    push_cast
    omega
  case month =>
    show toMillis (startOfDay (subMonths now (offset + 1)))
        < toMillis (endOfDay (subMonths now offset))
    rw [toMillis_endOfDay, toMillis_startOfDay]
    have hlt := dayIndex_lt_of_lex (subMonths now (offset + 1)) (subMonths now offset)
      (subMonths_valid now h (offset + 1)) (subMonths_valid now h offset)
      (by rcases subMonths_lex now offset with h1 | h2
          · exact Or.inl h1
          · exact Or.inr (Or.inl h2))
    rw [hD]
    omega

/-- Claim C5 witness at a concrete input. -/
theorem getDateRange_start_lt_stop_witness :
    validDate demoNow ∧
      toMillis (getDateRange .month 2 demoNow).start
        < toMillis (getDateRange .month 2 demoNow).stop :=
  ⟨by decide, getDateRange_start_lt_stop .month 2 demoNow (by decide)⟩

/-! ### The search request built by `fetchRepositories` (src/lib/api.ts). -/

/-- Hours component of the time of day. -/
def hourOf (dt : DateTime) : Nat := dt.msOfDay / 3600000

/-- Minutes component of the time of day. -/
def minuteOf (dt : DateTime) : Nat := dt.msOfDay / 60000 % 60

/-- Seconds component of the time of day. -/
def secondOf (dt : DateTime) : Nat := dt.msOfDay / 1000 % 60

/-- Two-digit zero-padded decimal rendering (for values below 100). -/
def pad2 (n : Nat) : List Char := [Nat.digitChar (n / 10), Nat.digitChar (n % 10)]

/-- Four-digit zero-padded decimal rendering (for values below 10000). -/
def pad4 (n : Nat) : List Char :=
  [Nat.digitChar (n / 1000), Nat.digitChar (n / 100 % 10),
    Nat.digitChar (n / 10 % 10), Nat.digitChar (n % 10)]

/-- date-fns `format(date, "yyyy-MM-dd'T'HH:mm:ss'Z'")`: the character list. -/
def isoBasicChars (dt : DateTime) : List Char :=
  pad4 dt.year.toNat ++ ['-'] ++ pad2 dt.month ++ ['-'] ++ pad2 dt.day
    ++ ['T'] ++ pad2 (hourOf dt) ++ [':'] ++ pad2 (minuteOf dt)
    ++ [':'] ++ pad2 (secondOf dt) ++ ['Z']

/-- date-fns `format(date, "yyyy-MM-dd'T'HH:mm:ss'Z'")` as a string. -/
def isoBasic (dt : DateTime) : String := ⟨isoBasicChars dt⟩

/-- `formatDateRange` from src/lib/api.ts. -/
def formatDateRange (dateRange : DateRange) : String :=
  "created:" ++ isoBasic dateRange.start ++ ".." ++ isoBasic dateRange.stop

/-- The HTTP request assembled by `fetchRepositories` (query parameters and
headers). -/
structure SearchRequest where
  q : String
  sort : String
  order : String
  per_page : String
  accept : String
  authorization : Option String
deriving DecidableEq, Repr

/-- The request-building part of `fetchRepositories` in src/lib/api.ts.
An absent or empty `language` (JS falsy) adds no language filter; an absent or
empty token (JS falsy) adds no Authorization header. -/
def buildSearchRequest (language : String) (dateRange : DateRange)
    (token : Option String) : SearchRequest :=
  let languageQuery := if language.isEmpty then "" else "language:" ++ language ++ " "
  let query := languageQuery ++ formatDateRange dateRange
  let authorization := match token with
    | some t => if t.isEmpty then none else some ("Bearer " ++ t)
    | none => none
  ⟨query, "stars", "desc", "25", "application/vnd.github.v3+json", authorization⟩

/-- Recognizer for `yyyy-MM-ddTHH:mm:ssZ`: 20 characters, digits in the date
and time positions, dashes, colons, a `T` separator, second precision (no
fractional part) and a trailing `Z`. -/
def isIsoUtcSecond (s : String) : Bool :=
  match s.data with
  | [y1, y2, y3, y4, a1, m1, m2, a2, d1, d2, t1, h1, h2, b1, i1, i2, b2, s1, s2, z1] =>
      y1.isDigit && y2.isDigit && y3.isDigit && y4.isDigit && a1 == '-' && m1.isDigit &&
      m2.isDigit && a2 == '-' && d1.isDigit && d2.isDigit && t1 == 'T' && h1.isDigit &&
      h2.isDigit && b1 == ':' && i1.isDigit && i2.isDigit && b2 == ':' && s1.isDigit &&
      s2.isDigit && z1 == 'Z'
  | _ => false

theorem digitChar_isDigit : ∀ k < 10, (Nat.digitChar k).isDigit = true := by decide

theorem isIsoUtcSecond_isoBasic (dt : DateTime) (h : validDate dt)
    (hy0 : 0 ≤ dt.year) (hy : dt.year ≤ 9999) :
    isIsoUtcSecond (isoBasic dt) = true := by
  obtain ⟨hm1, hm2, hd1, hd2, hms⟩ := h
  have hday : dt.day < 100 := by
    have := daysInMonth_le (isLeapYear dt.year) dt.month (by omega)
    omega
  have hyn : dt.year.toNat < 10000 := by omega
  have hms' : dt.msOfDay < 86400000 := hms
  simp only [isIsoUtcSecond, isoBasic, isoBasicChars, pad4, pad2, hourOf, minuteOf,
    secondOf, List.cons_append, List.nil_append, Bool.and_eq_true, beq_self_eq_true,
    and_true, true_and]
  repeat' apply And.intro
  all_goals (apply digitChar_isDigit; omega)

/-- Claim C3: the request built by `fetchRepositories` combines the optional
language filter with a `created:<start>..<end>` fragment whose two bounds are
ISO-8601 instants at second precision with a trailing `Z`, sorts by stars
descending and caps the page size at 25. -/
theorem buildSearchRequest_spec (language : String) (dateRange : DateRange)
    (token : Option String)
    (h1 : validDate dateRange.start) (h2 : validDate dateRange.stop)
    (hy1 : 0 ≤ dateRange.start.year) (hy2 : dateRange.start.year ≤ 9999)
    (hy3 : 0 ≤ dateRange.stop.year) (hy4 : dateRange.stop.year ≤ 9999) :
    (buildSearchRequest language dateRange token).q
        = (if language.isEmpty then "" else "language:" ++ language ++ " ")
          ++ "created:" ++ isoBasic dateRange.start ++ ".." ++ isoBasic dateRange.stop ∧
      isIsoUtcSecond (isoBasic dateRange.start) = true ∧
      isIsoUtcSecond (isoBasic dateRange.stop) = true ∧
      (buildSearchRequest language dateRange token).sort = "stars" ∧
      (buildSearchRequest language dateRange token).order = "desc" ∧
      (buildSearchRequest language dateRange token).per_page = "25" := by
  refine ⟨?_, isIsoUtcSecond_isoBasic _ h1 hy1 hy2,
    isIsoUtcSecond_isoBasic _ h2 hy3 hy4, rfl, rfl, rfl⟩
  show (if language.isEmpty then "" else "language:" ++ language ++ " ")
      ++ formatDateRange dateRange = _
  rw [formatDateRange]
  simp [String.append_assoc]

/-- Claim C3 witness at a concrete input. -/
theorem buildSearchRequest_spec_witness :
    validDate demoNow ∧
      isIsoUtcSecond (isoBasic demoNow) = true ∧
      (buildSearchRequest "" ⟨demoNow, demoNow⟩ none).sort = "stars" := by
  refine ⟨by decide, ?_, ?_⟩
  · exact (buildSearchRequest_spec "" ⟨demoNow, demoNow⟩ none (by decide) (by decide)
      (by decide) (by decide) (by decide) (by decide)).2.1
  · exact (buildSearchRequest_spec "" ⟨demoNow, demoNow⟩ none (by decide) (by decide)
      (by decide) (by decide) (by decide) (by decide)).2.2.2.1

/-! ### `formatDateRangeLabel` (src/lib/api.ts). -/

/-- Full month name (date-fns `MMMM`); empty for out-of-range months. -/
def monthName (m : Nat) : String :=
  match m with
  | 1 => "January"
  | 2 => "February"
  | 3 => "March"
  | 4 => "April"
  | 5 => "May"
  | 6 => "June"
  | 7 => "July"
  | 8 => "August"
  | 9 => "September"
  | 10 => "October"
  | 11 => "November"
  | 12 => "December"
  | _ => ""

/-- Abbreviated month name (date-fns `MMM`); empty for out-of-range months. -/
def monthAbbrev (m : Nat) : String :=
  match m with
  | 1 => "Jan"
  | 2 => "Feb"
  | 3 => "Mar"
  | 4 => "Apr"
  | 5 => "May"
  | 6 => "Jun"
  | 7 => "Jul"
  | 8 => "Aug"
  | 9 => "Sep"
  | 10 => "Oct"
  | 11 => "Nov"
  | 12 => "Dec"
  | _ => ""

/-- Unpadded day of month (date-fns `d`; day values are at most two digits). -/
def dayRepr (d : Nat) : List Char :=
  if d < 10 then [Nat.digitChar d] else [Nat.digitChar (d / 10), Nat.digitChar (d % 10)]

/-- date-fns `format(date, 'MMMM d, yyyy')`. -/
def formatDayLabel (dt : DateTime) : String :=
  monthName dt.month ++ " " ++ (⟨dayRepr dt.day⟩ : String) ++ ", "
    ++ (⟨pad4 dt.year.toNat⟩ : String)

/-- date-fns `format(date, 'MMM d')`. -/
def formatShort (dt : DateTime) : String :=
  monthAbbrev dt.month ++ " " ++ (⟨dayRepr dt.day⟩ : String)

/-- date-fns `format(date, 'MMM d, yyyy')`. -/
def formatShortYear (dt : DateTime) : String :=
  monthAbbrev dt.month ++ " " ++ (⟨dayRepr dt.day⟩ : String) ++ ", "
    ++ (⟨pad4 dt.year.toNat⟩ : String)

/-- `formatDateRangeLabel` from src/lib/api.ts: a single date for the `day`
cadence, a `<start> - <end>` range otherwise. -/
def formatDateRangeLabel (dateRange : DateRange) (dateJump : DateJump) : String :=
  match dateJump with
  | .day => formatDayLabel dateRange.start
  | _ => formatShort dateRange.start ++ " - " ++ formatShortYear dateRange.stop

theorem digitChar_ne_hyphen (k : Nat) : Nat.digitChar k ≠ '-' := by
  by_cases h : k < 16
  · exact (by decide : ∀ j < 16, Nat.digitChar j ≠ '-') k h
  · have hk : Nat.digitChar k = '*' := by
      unfold Nat.digitChar
      repeat rw [if_neg (by omega)]
    rw [hk]
    decide

theorem monthName_no_hyphen (m : Nat) : '-' ∉ (monthName m).data := by
  unfold monthName
  split <;> decide

theorem monthAbbrev_no_hyphen (m : Nat) : '-' ∉ (monthAbbrev m).data := by
  unfold monthAbbrev
  split <;> decide

theorem dayRepr_no_hyphen (d : Nat) : '-' ∉ dayRepr d := by
  have h1 := (digitChar_ne_hyphen d).symm
  have h2 := (digitChar_ne_hyphen (d / 10)).symm
  have h3 := (digitChar_ne_hyphen (d % 10)).symm
  unfold dayRepr
  split <;> simp [h1, h2, h3]

theorem pad4_no_hyphen (n : Nat) : '-' ∉ pad4 n := by
  have h1 := (digitChar_ne_hyphen (n / 1000)).symm
  have h2 := (digitChar_ne_hyphen (n / 100 % 10)).symm
  have h3 := (digitChar_ne_hyphen (n / 10 % 10)).symm
  have h4 := (digitChar_ne_hyphen (n % 10)).symm
  simp [pad4, h1, h2, h3, h4]

theorem dayRepr_ne_nil (d : Nat) : dayRepr d ≠ [] := by
  unfold dayRepr
  split <;> simp

theorem formatShort_no_hyphen (dt : DateTime) : '-' ∉ (formatShort dt).data := by
  simp only [formatShort, String.data_append, List.mem_append]
  push_neg
  refine ⟨⟨monthAbbrev_no_hyphen _, by decide⟩, ?_⟩
  show '-' ∉ dayRepr dt.day
  exact dayRepr_no_hyphen _

theorem formatShortYear_no_hyphen (dt : DateTime) : '-' ∉ (formatShortYear dt).data := by
  simp only [formatShortYear, String.data_append, List.mem_append]
  push_neg
  refine ⟨⟨⟨⟨monthAbbrev_no_hyphen _, by decide⟩, ?_⟩, by decide⟩, ?_⟩
  · show '-' ∉ dayRepr dt.day
    exact dayRepr_no_hyphen _
  · show '-' ∉ pad4 dt.year.toNat
    exact pad4_no_hyphen _

theorem formatShort_ne_nil (dt : DateTime) : (formatShort dt).data ≠ [] := by
  simp only [formatShort, String.data_append]
  intro h
  have := congrArg List.length h
  simp [List.length_append] at this

theorem formatShortYear_ne_nil (dt : DateTime) : (formatShortYear dt).data ≠ [] := by
  simp only [formatShortYear, String.data_append]
  intro h
  have := congrArg List.length h
  simp [List.length_append] at this

/-- Claim C6: the `day`-cadence label contains no dash at all (hence no range
separator), while the `week` and `month` labels decompose as
`<left> " - " <right>` with dash-free non-empty sides — i.e. they contain
exactly one dash-style separator, sitting between the two formatted dates. -/
theorem formatDateRangeLabel_separators (dateRange : DateRange) :
    ('-' ∉ (formatDateRangeLabel dateRange .day).data) ∧
      (∃ a b, (formatDateRangeLabel dateRange .week).data = a ++ (" - ").data ++ b ∧
        '-' ∉ a ∧ '-' ∉ b ∧ a ≠ [] ∧ b ≠ []) ∧
      (∃ a b, (formatDateRangeLabel dateRange .month).data = a ++ (" - ").data ++ b ∧
        '-' ∉ a ∧ '-' ∉ b ∧ a ≠ [] ∧ b ≠ []) := by
  refine ⟨?_, ?_, ?_⟩
  · show '-' ∉ (formatDayLabel dateRange.start).data
    simp only [formatDayLabel, String.data_append, List.mem_append]
    push_neg
    refine ⟨⟨⟨⟨monthName_no_hyphen _, by decide⟩, ?_⟩, by decide⟩, ?_⟩
    · show '-' ∉ dayRepr dateRange.start.day
      exact dayRepr_no_hyphen _
    · show '-' ∉ pad4 dateRange.start.year.toNat
      exact pad4_no_hyphen _
  · refine ⟨(formatShort dateRange.start).data, (formatShortYear dateRange.stop).data,
      ?_, formatShort_no_hyphen _, formatShortYear_no_hyphen _,
      formatShort_ne_nil _, formatShortYear_ne_nil _⟩
    show (formatShort dateRange.start ++ " - " ++ formatShortYear dateRange.stop).data = _
    simp [String.data_append]
  · refine ⟨(formatShort dateRange.start).data, (formatShortYear dateRange.stop).data,
      ?_, formatShort_no_hyphen _, formatShortYear_no_hyphen _,
      formatShort_ne_nil _, formatShortYear_ne_nil _⟩
    show (formatShort dateRange.start ++ " - " ++ formatShortYear dateRange.stop).data = _
    simp [String.data_append]

/-! ### Repository data (src/types/github.ts) and the response handling of
`fetchRepositories`. -/

/-- The `owner` sub-record of `Repository`. -/
structure Owner where
  login : String
  avatar_url : String
  html_url : String
deriving DecidableEq, Repr

/-- `Repository` from src/types/github.ts. -/
structure Repository where
  id : Nat
  name : String
  full_name : String
  description : Option String
  html_url : String
  stargazers_count : Nat
  forks_count : Nat
  open_issues_count : Nat
  language : Option String
  owner : Owner
  created_at : String
  updated_at : String
deriving DecidableEq, Repr

/-- `GitHubSearchResponse` from src/types/github.ts. -/
structure GitHubSearchResponse where
  total_count : Nat
  incomplete_results : Bool
  items : List Repository
deriving DecidableEq, Repr

/-- An upstream HTTP response as `fetchRepositories` consumes it: the status
code, the body's `message` field when the body parses and has one (an
unparseable body is modelled as an absent message, matching the
`.catch(() => ({}))` in the source), and the payload used on success. -/
structure UpstreamResponse where
  status : Nat
  message : Option String
  payload : GitHubSearchResponse
deriving DecidableEq, Repr

/-- `Response.ok` of the Fetch API: status in [200, 300). -/
def responseOk (r : UpstreamResponse) : Bool :=
  200 ≤ r.status && r.status < 300

/-- The generic status-coded message of src/lib/api.ts. -/
def fallbackMessage (status : Nat) : String :=
  "GitHub API error: " ++ toString status

/-- The response handling of `fetchRepositories`: on a non-ok status it throws
`new Error(error.message || fallback)` — by JS truthiness an absent OR empty
message falls back to the generic status-coded message. -/
def fetchRepositoriesResult (r : UpstreamResponse) :
    Except String GitHubSearchResponse :=
  if responseOk r then .ok r.payload
  else .error (match r.message with
    | some m => if m.isEmpty then fallbackMessage r.status else m
    | none => fallbackMessage r.status)

/-- An arbitrary concrete payload. -/
def emptyPayload : GitHubSearchResponse := ⟨0, false, []⟩

/-- Claim C4 (counterexample): a non-success response whose body DOES contain a
message — the empty string — does not surface that message: JS truthiness makes
`error.message || fallback` fall back, so the error is the generic status-coded
message rather than the upstream-provided one. -/
theorem fetchRepositoriesResult_empty_message_falls_back :
    fetchRepositoriesResult ⟨500, some "", emptyPayload⟩
        = .error "GitHub API error: 500" ∧
      fetchRepositoriesResult ⟨500, some "", emptyPayload⟩ ≠ .error "" := by
  have h1 : fetchRepositoriesResult ⟨500, some "", emptyPayload⟩
      = .error "GitHub API error: 500" := rfl
  refine ⟨h1, ?_⟩
  rw [h1]
  intro h
  have h2 : ("GitHub API error: 500" : String) = "" := by
    injection h
  exact absurd h2 (by decide)

/-- Claim C4 (amended): for a non-success upstream response the error message
is the upstream body's message when one is present and non-empty; when the
message is absent (or the body unparseable) or empty, it is the generic
status-coded message.  The 422 / "Validation Failed" scenario yields exactly
"Validation Failed". -/
theorem fetchRepositoriesResult_error_message (r : UpstreamResponse)
    (hok : responseOk r = false) :
    (∀ m, r.message = some m → m.isEmpty = false →
        fetchRepositoriesResult r = .error m) ∧
      ((r.message = none ∨ r.message = some "") →
        fetchRepositoriesResult r = .error (fallbackMessage r.status)) ∧
      (∀ payload, fetchRepositoriesResult ⟨422, some "Validation Failed", payload⟩
        = .error "Validation Failed") := by
  refine ⟨?_, ?_, ?_⟩
  · intro m hm hne
    simp [fetchRepositoriesResult, hok, hm, hne]
  · rintro (hm | hm)
    · simp [fetchRepositoriesResult, hok, hm]
    · have hemp : ("" : String).isEmpty = true := rfl
      simp [fetchRepositoriesResult, hok, hm, hemp]
  · intro payload
    rfl

/-- Claim C4 witness at a concrete input. -/
theorem fetchRepositoriesResult_error_message_witness :
    responseOk ⟨422, some "Validation Failed", emptyPayload⟩ = false ∧
      fetchRepositoriesResult ⟨422, some "Validation Failed", emptyPayload⟩
        = .error "Validation Failed" :=
  ⟨by decide,
    (fetchRepositoriesResult_error_message ⟨422, some "Validation Failed", emptyPayload⟩
      (by decide)).1 "Validation Failed" rfl (by decide)⟩

/-! ### The paginated group fetcher (useRepositories hook). -/

/-- `RepositoryGroup` from src/types/github.ts; `end` renamed `stop`. -/
structure RepositoryGroup where
  start : String
  stop : String
  repositories : List Repository
deriving DecidableEq, Repr

/-- Three-digit zero-padded decimal rendering (for values below 1000). -/
def pad3 (n : Nat) : List Char :=
  [Nat.digitChar (n / 100), Nat.digitChar (n / 10 % 10), Nat.digitChar (n % 10)]

/-- JS `Date.prototype.toISOString`: `yyyy-MM-ddTHH:mm:ss.sssZ`. -/
def toISOString (dt : DateTime) : String :=
  ⟨pad4 dt.year.toNat ++ ['-'] ++ pad2 dt.month ++ ['-'] ++ pad2 dt.day ++ ['T']
    ++ pad2 (hourOf dt) ++ [':'] ++ pad2 (minuteOf dt) ++ [':'] ++ pad2 (secondOf dt)
    ++ ['.'] ++ pad3 (dt.msOfDay % 1000) ++ ['Z']⟩

/-- The `queryFn` of `useInfiniteQuery` in the useRepositories hook: page
`pageParam` computes the date window at offset `pageParam` and wraps the
upstream items (the upstream is abstracted by the item list it returns for any
query) with the window's ISO bounds. -/
def queryFn (dateJump : DateJump) (now : DateTime) (items : List Repository)
    (pageParam : Nat) : RepositoryGroup :=
  let dateRange := getDateRange dateJump pageParam now
  ⟨toISOString dateRange.start, toISOString dateRange.stop, items⟩

/-- `getNextPageParam: (_lastPage, allPages) => allPages.length`. -/
def getNextPageParam (allPages : List RepositoryGroup) : Nat :=
  allPages.length

/-- Fetching `n` pages in sequence: the first request uses
`initialPageParam = 0` (the length of the empty page list) and each subsequent
request uses `getNextPageParam` applied to the pages fetched so far; each
resolved page is appended in order. -/
def fetchPages (qf : Nat → RepositoryGroup) : Nat → List RepositoryGroup
  | 0 => []
  | n + 1 => fetchPages qf n ++ [qf (getNextPageParam (fetchPages qf n))]

theorem fetchPages_eq (qf : Nat → RepositoryGroup) (n : Nat) :
    fetchPages qf n = (List.range n).map qf := by
  induction n with
  | zero => rfl
  | succ k ih =>
    simp [fetchPages, ih, getNextPageParam, List.range_succ]

/-- The (start, end) identification key of a group. -/
def groupKey (g : RepositoryGroup) : String × String :=
  (g.start, g.stop)

/-- A concrete repository owner for the mocked-upstream scenario. -/
def demoOwner : Owner := ⟨"octocat", "", ""⟩

/-- A concrete repository with a given id for the mocked-upstream scenario. -/
def demoRepo (i : Nat) : Repository :=
  ⟨i, "repo", "octocat/repo", none, "", 0, 0, 0, none, demoOwner, "", ""⟩

/-- The fixed 5-item upstream result of the mocked scenario. -/
def demoItems : List Repository :=
  [demoRepo 1, demoRepo 2, demoRepo 3, demoRepo 4, demoRepo 5]

/-- Claim C7: page N always uses offset N and after k pages the next page
parameter is k; in the mocked 5-item scenario, fetching offsets 0, 1, 2 under
one (language, cadence) key yields exactly three groups in list order, each
carrying the 5 items, whose windows come from offsets 0, 1, 2, with pairwise
distinct (start, end) group keys. -/
theorem useRepositories_pages_spec :
    (∀ (qf : Nat → RepositoryGroup) (n : Nat),
        fetchPages qf n = (List.range n).map qf ∧
          getNextPageParam (fetchPages qf n) = n) ∧
      fetchPages (queryFn .week demoNow demoItems) 3
          = [queryFn .week demoNow demoItems 0, queryFn .week demoNow demoItems 1,
              queryFn .week demoNow demoItems 2] ∧
      demoItems.length = 5 ∧
      (queryFn .week demoNow demoItems 0).repositories = demoItems ∧
      (queryFn .week demoNow demoItems 1).repositories = demoItems ∧
      (queryFn .week demoNow demoItems 2).repositories = demoItems ∧
      groupKey (queryFn .week demoNow demoItems 0)
          ≠ groupKey (queryFn .week demoNow demoItems 1) ∧
      groupKey (queryFn .week demoNow demoItems 0)
          ≠ groupKey (queryFn .week demoNow demoItems 2) ∧
      groupKey (queryFn .week demoNow demoItems 1)
          ≠ groupKey (queryFn .week demoNow demoItems 2) := by
  refine ⟨?_, ?_, rfl, rfl, rfl, rfl, by decide, by decide, by decide⟩
  · intro qf n
    refine ⟨fetchPages_eq qf n, ?_⟩
    simp [getNextPageParam, fetchPages_eq]
  · rw [fetchPages_eq]
    rfl

/-! ### The bookmarks store (useBookmarks, with JS `Set`/`Map` as ordered
duplicate-free lists / association lists). -/

/-- JS `new Set([...old, x])`: dedups, keeping insertion order. -/
def setInsert (x : Nat) (l : List Nat) : List Nat :=
  if x ∈ l then l else l ++ [x]

/-- JS `Map.set`: overwrite an existing key, else append. -/
def mapInsert (k : Nat) (v : String) (m : List (Nat × String)) : List (Nat × String) :=
  if m.any (fun e => e.1 == k) then m.map (fun e => if e.1 == k then (k, v) else e)
  else m ++ [(k, v)]

/-- JS `Map.delete`. -/
def mapErase (k : Nat) (m : List (Nat × String)) : List (Nat × String) :=
  m.filter (fun e => e.1 != k)

/-- The persisted fields of the useBookmarks store that the bookmark/note
operations touch. -/
structure BookmarksState where
  bookmarks : List Repository
  bookmarkedIds : List Nat
  notes : List (Nat × String)
deriving DecidableEq, Repr

/-- `addBookmark` from the useBookmarks store. -/
def addBookmark (repo : Repository) (s : BookmarksState) : BookmarksState :=
  ⟨repo :: s.bookmarks, setInsert repo.id s.bookmarkedIds, s.notes⟩

/-- `removeBookmark` from the useBookmarks store: drops the repository, its id
and its note. -/
def removeBookmark (repoId : Nat) (s : BookmarksState) : BookmarksState :=
  ⟨s.bookmarks.filter (fun r => r.id != repoId),
    s.bookmarkedIds.filter (fun i => i != repoId),
    mapErase repoId s.notes⟩

/-- `isBookmarked` from the useBookmarks store. -/
def isBookmarked (repoId : Nat) (s : BookmarksState) : Bool :=
  s.bookmarkedIds.contains repoId

/-- `toggleBookmark` from the useBookmarks store. -/
def toggleBookmark (repo : Repository) (s : BookmarksState) : BookmarksState :=
  if isBookmarked repo.id s then removeBookmark repo.id s else addBookmark repo s

/-- JS `String.prototype.trim`: strip leading and trailing whitespace. -/
def jsTrim (s : String) : String :=
  ⟨(((s.data.dropWhile Char.isWhitespace).reverse).dropWhile Char.isWhitespace).reverse⟩

/-- `setNote` from the useBookmarks store: `if (note.trim()) set else delete` —
a note whose trimmed content is empty (JS falsy) deletes instead of storing. -/
def setNote (repoId : Nat) (note : String) (s : BookmarksState) : BookmarksState :=
  ⟨s.bookmarks, s.bookmarkedIds,
    if (jsTrim note).isEmpty then mapErase repoId s.notes
    else mapInsert repoId note s.notes⟩

/-- `getNote` from the useBookmarks store. -/
def getNote (repoId : Nat) (s : BookmarksState) : Option String :=
  (s.notes.find? (fun e => e.1 == repoId)).map (fun e => e.2)

/-- The implicit store invariant: `bookmarkedIds` holds exactly the ids of the
repositories in `bookmarks`, and every note key is a bookmarked id. -/
def bookmarksInv (s : BookmarksState) : Prop :=
  (∀ i ∈ s.bookmarkedIds, i ∈ s.bookmarks.map (fun r => r.id)) ∧
    (∀ i ∈ s.bookmarks.map (fun r => r.id), i ∈ s.bookmarkedIds) ∧
    (∀ e ∈ s.notes, e.1 ∈ s.bookmarkedIds)

instance (s : BookmarksState) : Decidable (bookmarksInv s) := by
  unfold bookmarksInv; infer_instance

theorem mem_setInsert (i x : Nat) (l : List Nat) :
    i ∈ setInsert x l ↔ i = x ∨ i ∈ l := by
  unfold setInsert
  split
  · rename_i hx
    constructor
    · exact Or.inr
    · rintro (rfl | h)
      exacts [hx, h]
  · simp [or_comm]

theorem mem_mapErase (e : Nat × String) (k : Nat) (m : List (Nat × String)) :
    e ∈ mapErase k m ↔ e ∈ m ∧ e.1 ≠ k := by
  simp [mapErase, List.mem_filter]

theorem mem_mapInsert_key (e : Nat × String) (k : Nat) (v : String)
    (m : List (Nat × String)) (h : e ∈ mapInsert k v m) : e.1 = k ∨ e ∈ m := by
  unfold mapInsert at h
  split at h
  · rcases List.mem_map.mp h with ⟨e', he', heq⟩
    by_cases hk : e'.1 == k
    · rw [if_pos hk] at heq
      left
      rw [← heq]
    · rw [if_neg hk] at heq
      right
      rwa [← heq]
  · rcases List.mem_append.mp h with h' | h'
    · exact Or.inr h'
    · left
      simp at h'
      rw [h']

theorem addBookmark_inv (repo : Repository) (s : BookmarksState)
    (h : bookmarksInv s) : bookmarksInv (addBookmark repo s) := by
  obtain ⟨h1, h2, h3⟩ := h
  refine ⟨?_, ?_, ?_⟩
  · intro i hi
    rw [show (addBookmark repo s).bookmarkedIds = setInsert repo.id s.bookmarkedIds from rfl,
      mem_setInsert] at hi
    show i ∈ (repo :: s.bookmarks).map (fun r => r.id)
    rcases hi with rfl | hi
    · simp
    · simp only [List.map_cons, List.mem_cons]
      exact Or.inr (h1 i hi)
  · intro i hi
    have hi' : i ∈ (repo :: s.bookmarks).map (fun r => r.id) := hi
    simp only [List.map_cons, List.mem_cons] at hi'
    show i ∈ setInsert repo.id s.bookmarkedIds
    rw [mem_setInsert]
    rcases hi' with hh | hh
    · exact Or.inl hh
    · exact Or.inr (h2 i hh)
  · intro e he
    show e.1 ∈ setInsert repo.id s.bookmarkedIds
    rw [mem_setInsert]
    exact Or.inr (h3 e he)

theorem removeBookmark_inv (repoId : Nat) (s : BookmarksState)
    (h : bookmarksInv s) : bookmarksInv (removeBookmark repoId s) := by
  obtain ⟨h1, h2, h3⟩ := h
  refine ⟨?_, ?_, ?_⟩
  · intro i hi
    have hi' : i ∈ s.bookmarkedIds ∧ i ≠ repoId := by
      simpa [removeBookmark, List.mem_filter] using hi
    have := h1 i hi'.1
    simp only [List.mem_map] at this ⊢
    rcases this with ⟨r, hr, hr2⟩
    refine ⟨r, ?_, hr2⟩
    show r ∈ s.bookmarks.filter (fun r => r.id != repoId)
    rw [List.mem_filter]
    refine ⟨hr, ?_⟩
    simp only [bne_iff_ne, ne_eq]
    rw [hr2]
    exact hi'.2
  · intro i hi
    simp only [List.mem_map] at hi
    rcases hi with ⟨r, hr, hr2⟩
    have hr' : r ∈ s.bookmarks ∧ r.id ≠ repoId := by
      simpa [removeBookmark, List.mem_filter] using hr
    show i ∈ s.bookmarkedIds.filter (fun i => i != repoId)
    rw [List.mem_filter]
    constructor
    · exact h2 i (List.mem_map.mpr ⟨r, hr'.1, hr2⟩)
    · simp only [bne_iff_ne, ne_eq]
      rw [← hr2]
      exact hr'.2
  · intro e he
    have he' := (mem_mapErase e repoId s.notes).mp (by simpa [removeBookmark] using he)
    show e.1 ∈ s.bookmarkedIds.filter (fun i => i != repoId)
    rw [List.mem_filter]
    refine ⟨h3 e he'.1, ?_⟩
    simpa using he'.2

theorem toggleBookmark_inv (repo : Repository) (s : BookmarksState)
    (h : bookmarksInv s) : bookmarksInv (toggleBookmark repo s) := by
  unfold toggleBookmark
  split
  · exact removeBookmark_inv repo.id s h
  · exact addBookmark_inv repo s h

theorem setNote_inv (repoId : Nat) (note : String) (s : BookmarksState)
    (h : bookmarksInv s) (hid : repoId ∈ s.bookmarkedIds ∨ (jsTrim note).isEmpty = true) :
    bookmarksInv (setNote repoId note s) := by
  obtain ⟨h1, h2, h3⟩ := h
  refine ⟨h1, h2, ?_⟩
  intro e he
  show e.1 ∈ s.bookmarkedIds
  have he' : e ∈ (if (jsTrim note).isEmpty then mapErase repoId s.notes
      else mapInsert repoId note s.notes) := he
  split at he'
  · exact h3 e ((mem_mapErase e repoId s.notes).mp he').1
  · rcases mem_mapInsert_key e repoId note s.notes he' with hk | hk
    · rcases hid with hid | hid
      · rwa [hk]
      · rename_i hne
        exact absurd hid hne
    · exact h3 e hk

theorem getNote_removeBookmark (repoId : Nat) (s : BookmarksState) :
    getNote repoId (removeBookmark repoId s) = none := by
  show ((mapErase repoId s.notes).find? (fun e => e.1 == repoId)).map (fun e => e.2) = none
  have : (mapErase repoId s.notes).find? (fun e => e.1 == repoId) = none := by
    rw [List.find?_eq_none]
    intro e he
    have := (mem_mapErase e repoId s.notes).mp he
    simpa using this.2
  rw [this]
  rfl

/-- A concrete state satisfying the invariant, holding one bookmark. -/
def demoBookmarks : BookmarksState :=
  ⟨[demoRepo 1], [1], [(1, "note")]⟩

/-- Claim C8 (counterexample): `setNote` does not check that the id is
bookmarked, so from a valid (empty) store a non-blank note for a
never-bookmarked id breaks the "every note key is a bookmarked id" invariant. -/
theorem setNote_breaks_invariant :
    bookmarksInv ⟨[], [], []⟩ ∧ ¬ bookmarksInv (setNote 1 "note" ⟨[], [], []⟩) := by
  constructor
  · decide
  · decide

/-- Claim C8 (amended): `addBookmark`, `removeBookmark` and `toggleBookmark`
preserve the invariant that `bookmarkedIds` is exactly the id set of the
bookmarks list and that every note key is bookmarked; `setNote` preserves it
provided its id is already bookmarked or the note is blank (it performs no
bookmark check of its own); and `removeBookmark` deletes the removed
repository's note. -/
theorem bookmarks_operations_preserve_invariant (s : BookmarksState)
    (repo : Repository) (repoId : Nat) (note : String) (h : bookmarksInv s) :
    bookmarksInv (addBookmark repo s) ∧
      bookmarksInv (removeBookmark repoId s) ∧
      bookmarksInv (toggleBookmark repo s) ∧
      ((repoId ∈ s.bookmarkedIds ∨ (jsTrim note).isEmpty = true) →
        bookmarksInv (setNote repoId note s)) ∧
      getNote repoId (removeBookmark repoId s) = none :=
  ⟨addBookmark_inv repo s h, removeBookmark_inv repoId s h,
    toggleBookmark_inv repo s h,
    fun hid => setNote_inv repoId note s h hid,
    getNote_removeBookmark repoId s⟩

/-- Claim C8 witness at a concrete input. -/
theorem bookmarks_operations_preserve_invariant_witness :
    bookmarksInv demoBookmarks ∧
      (1 ∈ demoBookmarks.bookmarkedIds ∨ (jsTrim "x").isEmpty = true) ∧
      bookmarksInv (setNote 1 "x" demoBookmarks) ∧
      getNote 1 (removeBookmark 1 demoBookmarks) = none := by
  refine ⟨by decide, Or.inl (by decide), ?_, ?_⟩
  · exact (bookmarks_operations_preserve_invariant demoBookmarks (demoRepo 1) 1 "x"
      (by decide)).2.2.2.1 (Or.inl (by decide))
  · exact (bookmarks_operations_preserve_invariant demoBookmarks (demoRepo 1) 1 "x"
      (by decide)).2.2.2.2

theorem find?_mapErase (k : Nat) (m : List (Nat × String)) :
    (mapErase k m).find? (fun e => e.1 == k) = none := by
  rw [List.find?_eq_none]
  intro e he
  have := (mem_mapErase e k m).mp he
  simpa using this.2

theorem find?_overwrite (k : Nat) (v : String) :
    ∀ m : List (Nat × String), m.any (fun e => e.1 == k) = true →
      (m.map (fun e => if e.1 == k then (k, v) else e)).find? (fun e => e.1 == k)
        = some (k, v) := by
  intro m
  induction m with
  | nil => intro h; simp at h
  | cons e rest ih =>
    intro hany
    by_cases he : (e.1 == k) = true
    · rw [List.map_cons, if_pos he]
      rw [List.find?_cons_of_pos]
      simp
    · rw [List.map_cons, if_neg he]
      rw [List.find?_cons_of_neg]
      · apply ih
        simp only [List.any_cons, Bool.or_eq_true] at hany
        rcases hany with h | h
        · exact absurd h he
        · exact h
      · simpa using he

theorem find?_append_single (k : Nat) (v : String) :
    ∀ m : List (Nat × String), m.any (fun e => e.1 == k) = false →
      (m ++ [(k, v)]).find? (fun e => e.1 == k) = some (k, v) := by
  intro m
  induction m with
  | nil =>
    intro _
    simp [List.find?]
  | cons e rest ih =>
    intro hany
    simp only [List.any_cons, Bool.or_eq_false_iff] at hany
    rw [List.cons_append, List.find?_cons_of_neg]
    · exact ih hany.2
    · simpa using hany.1

theorem find?_mapInsert (k : Nat) (v : String) (m : List (Nat × String)) :
    (mapInsert k v m).find? (fun e => e.1 == k) = some (k, v) := by
  unfold mapInsert
  split
  · rename_i hany
    exact find?_overwrite k v m hany
  · rename_i hany
    exact find?_append_single k v m (by rwa [Bool.not_eq_true] at hany)

/-- Claim C9: `setNote` with a note whose trimmed content is empty removes any
existing note for that id (so `getNote` yields nothing afterwards); a note is
stored — verbatim, untrimmed — exactly when its trimmed content is non-empty. -/
theorem setNote_blank_removes (s : BookmarksState) (repoId : Nat) (note : String) :
    ((jsTrim note).isEmpty = true → getNote repoId (setNote repoId note s) = none) ∧
      ((jsTrim note).isEmpty = false →
        getNote repoId (setNote repoId note s) = some note) := by
  constructor
  · intro ht
    show ((if (jsTrim note).isEmpty then mapErase repoId s.notes
        else mapInsert repoId note s.notes).find? (fun e => e.1 == repoId)).map
          (fun e => e.2) = none
    rw [if_pos ht, find?_mapErase]
    rfl
  · intro ht
    show ((if (jsTrim note).isEmpty then mapErase repoId s.notes
        else mapInsert repoId note s.notes).find? (fun e => e.1 == repoId)).map
          (fun e => e.2) = some note
    rw [if_neg (by simp [ht]), find?_mapInsert]
    rfl

/-- Claim C9 witness: a whitespace-only note removes the stored note, a
non-blank note is stored verbatim. -/
theorem setNote_blank_removes_witness :
    getNote 1 (setNote 1 "   " demoBookmarks) = none ∧
      getNote 1 (setNote 1 "x" demoBookmarks) = some "x" :=
  ⟨(setNote_blank_removes demoBookmarks 1 "   ").1 (by decide),
    (setNote_blank_removes demoBookmarks 1 "x").2 (by decide)⟩

/-! ### `escapeXml` and `generateRSSFeed` (the RSS module). -/

/-- The double-quote character. -/
def quotChar : Char := Char.ofNat 34

/-- The apostrophe character. -/
def aposChar : Char := Char.ofNat 39

/-- The characters of the entity `&amp;`. -/
def ampEntity : List Char := ['&', 'a', 'm', 'p', ';']

/-- The characters of the entity `&lt;`. -/
def ltEntity : List Char := ['&', 'l', 't', ';']

/-- The characters of the entity `&gt;`. -/
def gtEntity : List Char := ['&', 'g', 't', ';']

/-- The characters of the entity `&quot;`. -/
def quotEntity : List Char := ['&', 'q', 'u', 'o', 't', ';']

/-- The characters of the entity `&apos;`. -/
def aposEntity : List Char := ['&', 'a', 'p', 'o', 's', ';']

/-- JS `String.prototype.replace(/c/g, repl)` for a single character pattern. -/
def replaceChar (c : Char) (repl : List Char) (l : List Char) : List Char :=
  l.flatMap (fun x => if x = c then repl else [x])

/-- `escapeXml` from the RSS module: the five global replacements in source
order (`&` first, then `<`, `>`, `"`, `'`). -/
def escapeXmlData (l : List Char) : List Char :=
  replaceChar aposChar aposEntity
    (replaceChar quotChar quotEntity
      (replaceChar '>' gtEntity
        (replaceChar '<' ltEntity
          (replaceChar '&' ampEntity l))))

/-- `escapeXml` on strings. -/
def escapeXml (text : String) : String := ⟨escapeXmlData text.data⟩

/-- The per-character effect of the five sequential replacements. -/
def escChar (c : Char) : List Char :=
  if c = '&' then ampEntity
  else if c = '<' then ltEntity
  else if c = '>' then gtEntity
  else if c = quotChar then quotEntity
  else if c = aposChar then aposEntity
  else [c]

theorem escapeXmlData_eq (l : List Char) : escapeXmlData l = l.flatMap escChar := by
  unfold escapeXmlData replaceChar
  rw [List.flatMap_assoc, List.flatMap_assoc, List.flatMap_assoc, List.flatMap_assoc]
  congr 1
  funext x
  by_cases h1 : x = '&'
  · subst h1; decide
  by_cases h2 : x = '<'
  · subst h2; decide
  by_cases h3 : x = '>'
  · subst h3; decide
  by_cases h4 : x = quotChar
  · subst h4; decide
  by_cases h5 : x = aposChar
  · subst h5; decide
  simp [escChar, h1, h2, h3, h4, h5]

theorem escChar_no_special (c : Char) :
    ∀ x ∈ escChar c, x ≠ '<' ∧ x ≠ '>' ∧ x ≠ quotChar ∧ x ≠ aposChar := by
  intro x hx
  unfold escChar at hx
  split_ifs at hx with h1 h2 h3 h4 h5
  · exact (by decide : ∀ y ∈ ampEntity, y ≠ '<' ∧ y ≠ '>' ∧ y ≠ quotChar ∧ y ≠ aposChar) x hx
  · exact (by decide : ∀ y ∈ ltEntity, y ≠ '<' ∧ y ≠ '>' ∧ y ≠ quotChar ∧ y ≠ aposChar) x hx
  · exact (by decide : ∀ y ∈ gtEntity, y ≠ '<' ∧ y ≠ '>' ∧ y ≠ quotChar ∧ y ≠ aposChar) x hx
  · exact (by decide : ∀ y ∈ quotEntity, y ≠ '<' ∧ y ≠ '>' ∧ y ≠ quotChar ∧ y ≠ aposChar) x hx
  · exact (by decide : ∀ y ∈ aposEntity, y ≠ '<' ∧ y ≠ '>' ∧ y ≠ quotChar ∧ y ≠ aposChar) x hx
  · have hxc : x = c := by simpa using hx
    subst hxc
    exact ⟨h2, h3, h4, h5⟩

/-- Boolean check that `pat` starts the list `l`. -/
def leadsWith : List Char → List Char → Bool
  | [], _ => true
  | _ :: _, [] => false
  | a :: as, b :: bs => a == b && leadsWith as bs

/-- Every `&` in the list opens one of the five entity references. -/
def ampOk : List Char → Bool
  | [] => true
  | c :: cs =>
    if c = '&' then
      (leadsWith ['a', 'm', 'p', ';'] cs || leadsWith ['l', 't', ';'] cs
        || leadsWith ['g', 't', ';'] cs || leadsWith ['q', 'u', 'o', 't', ';'] cs
        || leadsWith ['a', 'p', 'o', 's', ';'] cs) && ampOk cs
    else ampOk cs

theorem ampOk_escChar_append (c : Char) (r : List Char) (hr : ampOk r = true) :
    ampOk (escChar c ++ r) = true := by
  unfold escChar
  split_ifs with h1 h2 h3 h4 h5
  · show ampOk (ampEntity ++ r) = true
    simp [ampEntity, ampOk, leadsWith, hr]
  · show ampOk (ltEntity ++ r) = true
    simp [ltEntity, ampOk, leadsWith, hr]
  · show ampOk (gtEntity ++ r) = true
    simp [gtEntity, ampOk, leadsWith, hr]
  · show ampOk (quotEntity ++ r) = true
    simp [quotEntity, ampOk, leadsWith, hr]
  · show ampOk (aposEntity ++ r) = true
    simp [aposEntity, ampOk, leadsWith, hr]
  · show ampOk ([c] ++ r) = true
    simp [ampOk, h1, hr]

theorem escapeXmlData_safe (l : List Char) :
    (∀ x ∈ escapeXmlData l, x ≠ '<' ∧ x ≠ '>' ∧ x ≠ quotChar ∧ x ≠ aposChar) ∧
      ampOk (escapeXmlData l) = true := by
  rw [escapeXmlData_eq]
  induction l with
  | nil => exact ⟨by intro x hx; simp at hx, rfl⟩
  | cons c cs ih =>
    rw [List.flatMap_cons]
    refine ⟨?_, ampOk_escChar_append c _ ih.2⟩
    intro x hx
    rcases List.mem_append.mp hx with hx | hx
    · exact escChar_no_special c x hx
    · exact ih.1 x hx

/-- The options record of `generateRSSFeed`, with the defaulted `baseUrl` made
explicit. -/
structure RSSOptions where
  languages : List String
  dateJump : DateJump
  baseUrl : String
deriving Repr

/-- The literal name of a cadence (as interpolated into the description). -/
def dateJumpName : DateJump → String
  | .day => "day"
  | .week => "week"
  | .month => "month"

/-- The channel title computed by `generateRSSFeed`. -/
def channelTitle (languages : List String) : String :=
  if languages.length > 0 then "GitHunt - " ++ String.intercalate ", " languages
  else "GitHunt - All Languages"

/-- The channel description computed by `generateRSSFeed`. -/
def channelDescription (languages : List String) (dateJump : DateJump) : String :=
  "Trending GitHub repositories"
    ++ (if languages.length > 0 then " for " ++ String.intercalate ", " languages else "")
    ++ " (" ++ dateJumpName dateJump ++ "ly)"

/-- Model of JS `Number.prototype.toLocaleString` (thousands separators are
locale-dependent presentation and are not modelled). -/
def localeString (n : Nat) : String := toString n

/-- JS `Array.prototype.join('')`. -/
def joinAll : List String → String
  | [] => ""
  | s :: rest => s ++ joinAll rest

/-- One `<item>` element of the feed, as interpolated in the RSS module; the
JS date rendering `new Date(created_at).toUTCString()` is abstracted as the
function argument `utcOf`. -/
def itemXml (utcOf : String → String) (repo : Repository) : String :=
  "\n    <item>\n      <title>" ++ escapeXml repo.full_name
    ++ "</title>\n      <link>" ++ repo.html_url
    ++ "</link>\n      <description><![CDATA["
    ++ (match repo.description with
        | some d => if d.isEmpty then "No description" else d
        | none => "No description")
    ++ "\n\n⭐ " ++ localeString repo.stargazers_count ++ " stars | 🍴 "
    ++ localeString repo.forks_count ++ " forks"
    ++ (match repo.language with
        | some lang => if lang.isEmpty then "" else " | 💻 " ++ lang
        | none => "")
    ++ "]]></description>\n      <guid isPermaLink=\"true\">" ++ repo.html_url
    ++ "</guid>\n      <pubDate>" ++ utcOf repo.created_at
    ++ "</pubDate>\n      <author>" ++ escapeXml repo.owner.login
    ++ "</author>\n    </item>"

/-- `generateRSSFeed` from the RSS module; `nowUtc` abstracts
`new Date().toUTCString()`. -/
def generateRSSFeed (repositories : List Repository) (options : RSSOptions)
    (utcOf : String → String) (nowUtc : String) : String :=
  "<?xml version=\"1.0\" encoding=\"UTF-8\"?>\n<rss version=\"2.0\" xmlns:atom=\"http://www.w3.org/2005/Atom\">\n  <channel>\n    <title>"
    ++ escapeXml (channelTitle options.languages)
    ++ "</title>\n    <link>" ++ options.baseUrl
    ++ "</link>\n    <description>"
    ++ escapeXml (channelDescription options.languages options.dateJump)
    ++ "</description>\n    <language>en-us</language>\n    <lastBuildDate>"
    ++ nowUtc
    ++ "</lastBuildDate>\n    <atom:link href=\"" ++ options.baseUrl
    ++ "/rss\" rel=\"self\" type=\"application/rss+xml\"/>\n    "
    ++ joinAll (repositories.map (itemXml utcOf))
    ++ "\n  </channel>\n</rss>"

/-- `needle` occurs contiguously inside `hay`. -/
def containsSegment (needle hay : String) : Prop :=
  ∃ pre post, hay.data = pre ++ needle.data ++ post

theorem cs_refl (s : String) : containsSegment s s :=
  ⟨[], [], by simp⟩

theorem cs_appendl (n B A : String) (h : containsSegment n B) :
    containsSegment n (A ++ B) := by
  obtain ⟨pre, post, hp⟩ := h
  exact ⟨A.data ++ pre, post, by rw [String.data_append, hp]; simp⟩

theorem cs_appendr (n A B : String) (h : containsSegment n A) :
    containsSegment n (A ++ B) := by
  obtain ⟨pre, post, hp⟩ := h
  exact ⟨pre, post ++ B.data, by rw [String.data_append, hp]; simp⟩

theorem cs_joinAll (f : Repository → String) (n : String) :
    ∀ (repos : List Repository) (r : Repository), r ∈ repos →
      containsSegment n (f r) → containsSegment n (joinAll (repos.map f)) := by
  intro repos
  induction repos with
  | nil =>
    intro r hr _
    exact absurd hr (List.not_mem_nil r)
  | cons a rest ih =>
    intro r hr hn
    rw [List.map_cons]
    show containsSegment n (f a ++ joinAll (rest.map f))
    rcases List.mem_cons.mp hr with rfl | hr'
    · exact cs_appendr n _ _ hn
    · exact cs_appendl n _ _ (ih r hr' hn)

theorem itemXml_contains_fullname (utcOf : String → String) (repo : Repository) :
    containsSegment (escapeXml repo.full_name) (itemXml utcOf repo) := by
  unfold itemXml
  repeat first
  | exact cs_appendl _ _ _ (cs_refl _)
  | apply cs_appendr

theorem itemXml_contains_login (utcOf : String → String) (repo : Repository) :
    containsSegment (escapeXml repo.owner.login) (itemXml utcOf repo) := by
  unfold itemXml
  repeat first
  | exact cs_appendl _ _ _ (cs_refl _)
  | apply cs_appendr

/-- Claim C10: `escapeXml` leaves no raw `<`, `>`, `"` or `'` in its output and
leaves `&` only as the opener of one of the five entity references
(`&amp; &lt; &gt; &quot; &apos;`); `generateRSSFeed` renders the channel title
and description and every item's title (full name) and author (owner login)
through this escaping. -/
theorem escapeXml_rss_spec :
    (∀ s : String,
      (∀ x ∈ (escapeXml s).data, x ≠ '<' ∧ x ≠ '>' ∧ x ≠ quotChar ∧ x ≠ aposChar) ∧
        ampOk (escapeXml s).data = true) ∧
      (∀ (repositories : List Repository) (options : RSSOptions)
          (utcOf : String → String) (nowUtc : String),
        containsSegment (escapeXml (channelTitle options.languages))
            (generateRSSFeed repositories options utcOf nowUtc) ∧
          containsSegment
            (escapeXml (channelDescription options.languages options.dateJump))
            (generateRSSFeed repositories options utcOf nowUtc) ∧
          (∀ repo ∈ repositories,
            containsSegment (escapeXml repo.full_name)
                (generateRSSFeed repositories options utcOf nowUtc) ∧
              containsSegment (escapeXml repo.owner.login)
                (generateRSSFeed repositories options utcOf nowUtc))) := by
  constructor
  · intro s
    exact escapeXmlData_safe s.data
  · intro repositories options utcOf nowUtc
    refine ⟨?_, ?_, ?_⟩
    · unfold generateRSSFeed
      apply cs_appendr
      apply cs_appendr
      apply cs_appendr
      apply cs_appendr
      apply cs_appendr
      apply cs_appendr
      apply cs_appendr
      apply cs_appendr
      apply cs_appendr
      apply cs_appendr
      apply cs_appendr
      exact cs_appendl _ _ _ (cs_refl _)
    · unfold generateRSSFeed
      apply cs_appendr
      apply cs_appendr
      apply cs_appendr
      apply cs_appendr
      apply cs_appendr
      apply cs_appendr
      apply cs_appendr
      exact cs_appendl _ _ _ (cs_refl _)
    · intro repo hrepo
      constructor
      · unfold generateRSSFeed
        apply cs_appendr
        apply cs_appendl
        exact cs_joinAll (itemXml utcOf) _ repositories repo hrepo
          (itemXml_contains_fullname utcOf repo)
      · unfold generateRSSFeed
        apply cs_appendr
        apply cs_appendl
        exact cs_joinAll (itemXml utcOf) _ repositories repo hrepo
          (itemXml_contains_login utcOf repo)

/-- Concrete RSS options for the witness. -/
def demoOpts : RSSOptions := ⟨["TypeScript"], .week, "base"⟩

/-- Claim C10 witness at concrete inputs. -/
theorem escapeXml_rss_spec_witness :
    (('a' : Char) ≠ '<' ∧ ('a' : Char) ≠ '>' ∧ ('a' : Char) ≠ quotChar ∧
        ('a' : Char) ≠ aposChar) ∧
      ampOk (escapeXml "a<b&c").data = true ∧
      containsSegment (escapeXml (demoRepo 1).full_name)
        (generateRSSFeed [demoRepo 1] demoOpts (fun s => s) "now") :=
  ⟨(escapeXml_rss_spec.1 "a<b&c").1 'a' (by decide),
    (escapeXml_rss_spec.1 "a<b&c").2,
    ((escapeXml_rss_spec.2 [demoRepo 1] demoOpts (fun s => s) "now").2.2 (demoRepo 1)
      (by decide)).1⟩

end GitHunt
